import Mathlib

/-!
Shallow embedding of the PokemonCardScanner pipeline (src/app.py).

Pure data is modelled over `ℚ` (the Python code uses machine floats only as
carriers for exact small values: pixel coordinates, 0.0/1.0 hash bits, and
squared-distance comparisons).  External collaborators (OpenCV contour
machinery, the YOLO detector, the imagehash bit-level transforms) are
modelled as explicit parameters (`CV`, `Detector`, `ImagehashLib`), while
every piece of control flow and arithmetic that lives in app.py itself is
translated directly.

Conventions:
* a point is `(x, y) : ℚ × ℚ`, matching `points[:, 0]` / `points[:, 1]`;
* an image is its pixel raster; `Img.height` is the number of rows and
  `Img.width` the length of the first row, matching `img.shape`;
* Python exceptions are values of `PyErr`, and fallible code returns
  `Except PyErr`.
-/

/-- Python exception outcomes that the embedded code can raise. -/
inductive PyErr where
  | attributeError
  | valueError
  | indexError
  | typeError
  deriving DecidableEq, Repr

/-- RGB pixel. -/
abbrev Pixel : Type := ℚ × ℚ × ℚ

/-- An image is a raster of rows of pixels (numpy array layout). -/
structure Img where
  data : List (List Pixel)
  deriving DecidableEq

/-- Number of rows, `img.shape[0]`. -/
def Img.height (im : Img) : Nat := im.data.length

/-- Number of columns of the first row, `img.shape[1]`. -/
def Img.width (im : Img) : Nat := (im.data.headD []).length

/-- Pixel access with numpy-style in-bounds reads (out of bounds reads give
black; the embedded code only reads in bounds or behind explicit border
handling). -/
def getPixel (im : Img) (x y : Nat) : Pixel := ((im.data.getD y []).getD x (0, 0, 0))

/-- A binary instance mask as produced from the YOLO tensor
(`mask.cpu().numpy().astype(np.uint8) * 255`). -/
abbrev Mask : Type := List (List Bool)

/-- A contour is a list of 2-d points, as returned by `cv2.findContours`. -/
abbrev Contour : Type := List (ℚ × ℚ)

/-- The OpenCV primitives used by app.py, treated as an external collaborator:
app.py calls them but their internals are library code, so they enter the
embedding as an explicit parameter.  Every theorem about the repository's own
logic quantifies over this structure. -/
structure CV where
  morphologyEx : Mask → Mask
  findContours : Mask → List Contour
  contourArea : Contour → ℚ
  convexHull : Contour → Contour
  arcLength : Contour → Bool → ℚ
  approxPolyDP : Contour → ℚ → Bool → List (ℚ × ℚ)
  imdecode : List Nat → Option Img

/-- The YOLO model (external collaborator): an image in, instance masks out. -/
structure Detector where
  predict : Img → List Mask

/-- `max(contours, key=cv2.contourArea)`: Python's `max` keeps the first
maximal element, i.e. it replaces the running best only on strict increase. -/
def maxByArea (cv : CV) (c : Contour) (rest : List Contour) : Contour :=
  rest.foldl (fun best x => if cv.contourArea best < cv.contourArea x then x else best) c

/-- `np.linspace(0.01, 0.1, 10)`: ten evenly spaced tolerance factors. -/
def linspace_eps : List ℚ :=
  [1/100, 2/100, 3/100, 4/100, 5/100, 6/100, 7/100, 8/100, 9/100, 10/100]

/-- The epsilon sweep of app.py lines 41-45: each iteration recomputes
`approx = cv2.approxPolyDP(hull, factor * arcLength(hull), True)` and breaks
as soon as it has 4 vertices; if no factor succeeds the last attempt is kept. -/
def forceFourLoop (cv : CV) (hull : Contour) : List ℚ → List (ℚ × ℚ) → List (ℚ × ℚ)
  | [], approx => approx
  | ef :: rest, _ =>
    let approx := cv.approxPolyDP hull (ef * cv.arcLength hull true) true
    if approx.length = 4 then approx else forceFourLoop cv hull rest approx

/-- app.py `process_full_mask` (lines 12-54): morphological closing, external
contours, largest contour, convex hull, polygon approximation at 2% of the
perimeter, then the epsilon sweep; returns `none` unless exactly 4 vertices
come out. -/
def process_full_mask (cv : CV) (mask : Mask) : Option (List (ℚ × ℚ)) :=
  let mask_closed := cv.morphologyEx mask
  let contours := cv.findContours mask_closed
  match contours with
  | [] => none
  | c :: rest =>
    let largest_contour := maxByArea cv c rest
    let hull := cv.convexHull largest_contour
    let epsilon := 2/100 * cv.arcLength largest_contour true
    let approx := cv.approxPolyDP largest_contour epsilon true
    let approx2 := if approx.length ≠ 4 then forceFourLoop cv hull linspace_eps approx else approx
    if approx2.length ≠ 4 then none else some approx2

/-- Relation used for `np.argsort(points[:, 1])`: compare by the y
coordinate.  numpy's default sort on 4-element arrays is insertion sort,
which is stable, so the embedding uses the stable `List.insertionSort`. -/
def yle (p q : ℚ × ℚ) : Prop := p.2 ≤ q.2

/-- Relation used for `np.argsort(points[:, 0])`: compare by x. -/
def xle (p q : ℚ × ℚ) : Prop := p.1 ≤ q.1

instance : DecidableRel yle := fun p q => inferInstanceAs (Decidable (p.2 ≤ q.2))

instance : DecidableRel xle := fun p q => inferInstanceAs (Decidable (p.1 ≤ q.1))

instance : IsTotal (ℚ × ℚ) yle := ⟨fun p q => le_total p.2 q.2⟩

instance : IsTrans (ℚ × ℚ) yle := ⟨fun _ _ _ h1 h2 => le_trans h1 h2⟩

instance : IsTotal (ℚ × ℚ) xle := ⟨fun p q => le_total p.1 q.1⟩

instance : IsTrans (ℚ × ℚ) xle := ⟨fun _ _ _ h1 h2 => le_trans h1 h2⟩

/-- The split-and-sort step of `sort_rectangle_points` applied to the
y-sorted list: top two sorted by x ascending, bottom two sorted by x
ascending and then reversed (`[::-1]`), concatenated. -/
def sortSplit (ptsY : List (ℚ × ℚ)) : List (ℚ × ℚ) :=
  let top_points := List.insertionSort xle (ptsY.take 2)
  let bottom_points := (List.insertionSort xle (ptsY.drop 2)).reverse
  top_points ++ bottom_points

/-- app.py `sort_rectangle_points` (lines 145-161). -/
def sort_rectangle_points (points : List (ℚ × ℚ)) : List (ℚ × ℚ) :=
  sortSplit (List.insertionSort yle points)

/-- 3×3 matrix of the projective transform. -/
structure Mat3 where
  m00 : ℚ
  m01 : ℚ
  m02 : ℚ
  m10 : ℚ
  m11 : ℚ
  m12 : ℚ
  m20 : ℚ
  m21 : ℚ
  m22 : ℚ
  deriving DecidableEq

def zeroMat3 : Mat3 := ⟨0, 0, 0, 0, 0, 0, 0, 0, 0⟩

/-- The 8×9 augmented linear system `getPerspectiveTransform` sets up
(OpenCV imgwarp.cpp): four x-equations then four y-equations. -/
def perspectiveRows (src dst : List (ℚ × ℚ)) : List (List ℚ) :=
  (src.zip dst).map (fun sd =>
    [sd.1.1, sd.1.2, 1, 0, 0, 0, -sd.1.1 * sd.2.1, -sd.1.2 * sd.2.1, sd.2.1]) ++
  (src.zip dst).map (fun sd =>
    [0, 0, 0, sd.1.1, sd.1.2, 1, -sd.1.1 * sd.2.2, -sd.1.2 * sd.2.2, sd.2.2])

/-- Find the first row with a nonzero leading coefficient (partial
pivoting); return it together with the remaining rows. -/
def findPivot : List (List ℚ) → Option (List ℚ × List (List ℚ))
  | [] => none
  | r :: rs =>
    if r.headD 0 ≠ 0 then some (r, rs)
    else (findPivot rs).map (fun pr => (pr.1, r :: pr.2))

/-- Eliminate the leading column of `row` against `pivot` and drop it. -/
def elimRow (pivot row : List ℚ) : List ℚ :=
  let f := row.headD 0 / pivot.headD 0
  List.zipWith (fun a b => a - f * b) row.tail pivot.tail

/-- Forward elimination with `n` pivot stages; `none` iff the system is
singular (some stage has an all-zero leading column). -/
def gaussForward : Nat → List (List ℚ) → Option (List (List ℚ))
  | 0, _ => some []
  | n + 1, rows =>
    match findPivot rows with
    | none => none
    | some pr =>
      match gaussForward n (pr.2.map (elimRow pr.1)) with
      | none => none
      | some tri => some (pr.1 :: tri)

def dotQ (a b : List ℚ) : ℚ := (List.zipWith (fun x y => x * y) a b).sum

/-- Back substitution over the reversed triangular rows. -/
def backSubAux : List (List ℚ) → List ℚ → List ℚ
  | [], sol => sol
  | r :: rs, sol =>
    let pivot := r.headD 1
    let rest := r.tail
    let rhs := rest.getLastD 0
    let coeffs := rest.dropLast
    backSubAux rs (((rhs - dotQ coeffs sol) / pivot) :: sol)

/-- Solve an `n`-unknown augmented system; `none` iff singular. -/
def gaussSolve (n : Nat) (rows : List (List ℚ)) : Option (List ℚ) :=
  match gaussForward n rows with
  | none => none
  | some tri => some (backSubAux tri.reverse [])

def matFromList (h : List ℚ) : Mat3 :=
  ⟨h.getD 0 0, h.getD 1 0, h.getD 2 0,
   h.getD 3 0, h.getD 4 0, h.getD 5 0,
   h.getD 6 0, h.getD 7 0, 1⟩

/-- The exact projective-transform solve underlying
`cv2.getPerspectiveTransform`: `none` exactly when the 8×8 system is
singular (source points collinear or otherwise degenerate). -/
def solveHomography (src dst : List (ℚ × ℚ)) : Option Mat3 :=
  match gaussSolve 8 (perspectiveRows src dst) with
  | none => none
  | some h => some (matFromList h)

/-- `cv2.getPerspectiveTransform(src, dst)`: OpenCV calls `cv::solve` with
`DECOMP_LU` and ignores its boolean result, so a singular system is NOT
reported — the call returns an invalid matrix (modelled as the zero matrix)
instead of raising. -/
def getPerspectiveTransform (src dst : List (ℚ × ℚ)) : Mat3 :=
  match solveHomography src dst with
  | none => zeroMat3
  | some M => M

def applyPersp (M : Mat3) (x y : ℚ) : ℚ × ℚ :=
  let w := M.m20 * x + M.m21 * y + M.m22
  ((M.m00 * x + M.m01 * y + M.m02) / w, (M.m10 * x + M.m11 * y + M.m12) / w)

def det3 (M : Mat3) : ℚ :=
  M.m00 * (M.m11 * M.m22 - M.m12 * M.m21)
    - M.m01 * (M.m10 * M.m22 - M.m12 * M.m20)
    + M.m02 * (M.m10 * M.m21 - M.m11 * M.m20)

/-- Adjugate-based 3×3 inverse (zero matrix when singular, mirroring
OpenCV's unchecked invert inside `warpPerspective`). -/
def inv3 (M : Mat3) : Mat3 :=
  let d := det3 M
  if d = 0 then zeroMat3 else
    ⟨(M.m11 * M.m22 - M.m12 * M.m21) / d, (M.m02 * M.m21 - M.m01 * M.m22) / d,
     (M.m01 * M.m12 - M.m02 * M.m11) / d, (M.m12 * M.m20 - M.m10 * M.m22) / d,
     (M.m00 * M.m22 - M.m02 * M.m20) / d, (M.m02 * M.m10 - M.m00 * M.m12) / d,
     (M.m10 * M.m21 - M.m11 * M.m20) / d, (M.m01 * M.m20 - M.m00 * M.m21) / d,
     (M.m00 * M.m11 - M.m01 * M.m10) / d⟩

/-- One destination pixel of `cv2.warpPerspective`: pull the source location
through the inverted transform and sample.  The Lanczos kernel of the real
call is floating-point library internals; the model samples the nearest
source pixel (with the default constant black border), which no claim's
statement depends on. -/
def samplePix (src : Img) (Minv : Mat3) (x y : Nat) : Pixel :=
  let uv := applyPersp Minv (x : ℚ) (y : ℚ)
  let ui := Rat.floor uv.1
  let vi := Rat.floor uv.2
  if 0 ≤ ui ∧ 0 ≤ vi ∧ ui.toNat < src.width ∧ vi.toNat < src.height then
    getPixel src ui.toNat vi.toNat
  else (0, 0, 0)

/-- `cv2.warpPerspective(src, M, (w, h), ...)`: the output raster has
exactly `h` rows of `w` pixels whatever the inputs are. -/
def warpPerspective (src : Img) (M : Mat3) (w h : Nat) : Img :=
  ⟨(List.range h).map (fun y => (List.range w).map (fun x => samplePix src (inv3 M) x y))⟩

/-- The fixed destination rectangle of app.py lines 117-124
(`card_width = 500`, `card_height = 700`). -/
def dst_points : List (ℚ × ℚ) := [(0, 0), (499, 0), (499, 699), (0, 699)]

/-- The per-rectangle tail of the mask loop (app.py lines 110-136): rescale
the detection-resolution rectangle to source resolution, canonicalize the
corner order, compute the perspective transform and warp.  Note there is no
branch on degeneracy: every rectangle yields an output image. -/
def rectifyStep (img_rgb : Img) (sx sy : ℚ) (rectangle : List (ℚ × ℚ)) : Img :=
  let rectangle_original := rectangle.map (fun p => (p.1 * sx, p.2 * sy))
  let rect_points := sort_rectangle_points rectangle_original
  let M := getPerspectiveTransform rect_points dst_points
  warpPerspective img_rgb M 500 700

/-- The mask loop of app.py lines 97-136: masks whose `process_full_mask`
fails are skipped and the loop continues with the remaining masks. -/
def processMasksGo (cv : CV) (img_rgb : Img) (sx sy : ℚ) : List Mask → List Img
  | [] => []
  | m :: rest =>
    match process_full_mask cv m with
    | none => processMasksGo cv img_rgb sx sy rest
    | some rect => rectifyStep img_rgb sx sy rect :: processMasksGo cv img_rgb sx sy rest

/-- `for i, mask in enumerate(masks[:10])`: only the first 10 masks enter
the loop. -/
def maskPipeline (cv : CV) (img_rgb : Img) (sx sy : ℚ) (masks : List Mask) : List Img :=
  processMasksGo cv img_rgb sx sy (masks.take 10)

/-- `cv2.cvtColor(img, cv2.COLOR_BGR2RGB)`: swap the first and third
channels of every pixel. -/
def cvtColorBGR2RGB (im : Img) : Img :=
  ⟨im.data.map (fun row => row.map (fun p => (p.2.2, p.2.1, p.1)))⟩

/-- `cv2.resize(img, (w, h))` modelled with nearest sampling (the bilinear
kernel is library floating point; the result only feeds the external
detector). -/
def resizeImg (im : Img) (w h : Nat) : Img :=
  ⟨(List.range h).map (fun y => (List.range w).map (fun x =>
    getPixel im (x * im.width / w) (y * im.height / h)))⟩

/-- app.py `detect_edges_and_corners` (lines 57-142) from the point the
image bytes are in hand: decode (`None` on failure, which the caller then
trips over), downscale to 640×640 for the detector, run the mask loop at
the original resolution with the rescale factors of lines 111-112, and
return the list of rectified cards. -/
def detect_edges_and_corners (cv : CV) (det : Detector) (fileBytes : List Nat) :
    Option (List Img) :=
  match cv.imdecode fileBytes with
  | none => none
  | some img =>
    let img_rgb := cvtColorBGR2RGB img
    let img_downscaled := resizeImg img_rgb 640 640
    let masks := det.predict img_downscaled
    let scale_x : ℚ := (img.width : ℚ) / 640
    let scale_y : ℚ := (img.height : ℚ) / 640
    some (maskPipeline cv img_rgb scale_x scale_y masks)

/-- A Python value that can be passed where PIL expects an image: either an
actual image, or (as happens in `build_annoy_index`) a decoded
`imagehash.ImageHash` object, which is just a bit array and has none of the
PIL image methods. -/
inductive PILValue where
  | img (im : Img)
  | hashObj (bits : List Bool)

/-- The imagehash library's three hash algorithms, external collaborators:
each maps a PIL image to a `hash_size × hash_size` boolean array, here
already flattened; with `hash_size = 32` (fixed in app.py) that is 1024
bits.  The frequency/intensity/gradient transforms inside them are library
floating-point internals and enter as parameters; the 1024-bit shape is the
library's documented contract. -/
structure ImagehashLib where
  phashBits : Img → { l : List Bool // l.length = 1024 }
  ahashBits : Img → { l : List Bool // l.length = 1024 }
  dhashBits : Img → { l : List Bool // l.length = 1024 }

/-- `imagehash.phash(image, hash_size=32)`: the library's first action is
`image.convert('L')`; an `ImageHash` object has no `convert` attribute, so
passing one raises `AttributeError`. -/
def imagehash_phash (lib : ImagehashLib) : PILValue → Except PyErr (List Bool)
  | .img im => .ok (lib.phashBits im).1
  | .hashObj _ => .error .attributeError

/-- `imagehash.average_hash(image, hash_size=32)`, same calling contract. -/
def imagehash_average_hash (lib : ImagehashLib) : PILValue → Except PyErr (List Bool)
  | .img im => .ok (lib.ahashBits im).1
  | .hashObj _ => .error .attributeError

/-- `imagehash.dhash(image, hash_size=32)`, same calling contract. -/
def imagehash_dhash (lib : ImagehashLib) : PILValue → Except PyErr (List Bool)
  | .img im => .ok (lib.dhashBits im).1
  | .hashObj _ => .error .attributeError

/-- `np.array([float(i) for i in hash.hash.flatten()])`: booleans cast
element-wise to 0.0 / 1.0. -/
def toFloatVec (l : List Bool) : List ℚ := l.map (fun b => if b then 1 else 0)

/-- app.py `compute_robust_hash` (lines 164-179): the three 1024-bit hashes
of one input, flattened to 0.0/1.0 vectors, in phash/ahash/dhash order. -/
def compute_robust_hash (lib : ImagehashLib) (image : PILValue) :
    Except PyErr (List ℚ × List ℚ × List ℚ) :=
  match imagehash_phash lib image with
  | .error e => .error e
  | .ok phash =>
    match imagehash_average_hash lib image with
    | .error e => .error e
    | .ok ahash =>
      match imagehash_dhash lib image with
      | .error e => .error e
      | .ok dhash => .ok (toFloatVec phash, toFloatVec ahash, toFloatVec dhash)

/-- One entry of the reference database `hash_db.json`: three hex-encoded
hash strings. -/
structure StoredHashes where
  phash : String
  ahash : String
  dhash : String
  deriving DecidableEq

def isHexDigit (c : Char) : Bool :=
  (('0' ≤ c && c ≤ '9') || ('a' ≤ c && c ≤ 'f') || ('A' ≤ c && c ≤ 'F'))

def hexVal (c : Char) : Nat :=
  if '0' ≤ c && c ≤ '9' then c.toNat - '0'.toNat
  else if 'a' ≤ c && c ≤ 'f' then c.toNat - 'a'.toNat + 10
  else if 'A' ≤ c && c ≤ 'F' then c.toNat - 'A'.toNat + 10
  else 0

def hexDigitBits (c : Char) : List Bool :=
  [(hexVal c).testBit 3, (hexVal c).testBit 2, (hexVal c).testBit 1, (hexVal c).testBit 0]

def hexBits (s : String) : List Bool :=
  s.data.foldr (fun c acc => hexDigitBits c ++ acc) []

/-- `imagehash.hex_to_hash(s)`: parses the hex string (raising `ValueError`
through `int(s, 16)` on a non-hex character) and yields an `ImageHash`
object holding the decoded bit array — not a PIL image. -/
def hex_to_hash (s : String) : Except PyErr PILValue :=
  if s.data.all isHexDigit then .ok (.hashObj (hexBits s)) else .error .valueError

/-- The body of the `build_annoy_index` loop (app.py lines 197-211) for one
database entry: decode the three stored hex hashes, then — as written in the
source — call `compute_robust_hash` on the decoded *phash object* (the
decoded ahash/dhash are never used again), concatenate what comes back, and
append the embedding at the next sequential position together with the card
id.  Any exception propagates out of the whole build. -/
def build_entry (lib : ImagehashLib) (acc : List (List ℚ) × List String)
    (entry : String × StoredHashes) : Except PyErr (List (List ℚ) × List String) :=
  match hex_to_hash entry.2.phash with
  | .error e => .error e
  | .ok stored_phash =>
    match hex_to_hash entry.2.ahash with
    | .error e => .error e
    | .ok _stored_ahash =>
      match hex_to_hash entry.2.dhash with
      | .error e => .error e
      | .ok _stored_dhash =>
        match compute_robust_hash lib stored_phash with
        | .error e => .error e
        | .ok v =>
          let embedding := v.1 ++ v.2.1 ++ v.2.2
          .ok (acc.1 ++ [embedding], acc.2 ++ [entry.1])

def buildLoop (lib : ImagehashLib) (acc : List (List ℚ) × List String) :
    List (String × StoredHashes) → Except PyErr (List (List ℚ) × List String)
  | [] => .ok acc
  | e :: rest =>
    match build_entry lib acc e with
    | .error err => .error err
    | .ok acc2 => buildLoop lib acc2 rest

/-- app.py `build_annoy_index` (lines 182-217): iterate the reference
database in insertion order, adding one embedding per entry at its
sequential position and recording the card id; the built Annoy index is
modelled as the position-indexed list of inserted vectors (the on-disk
persistence and the 10-tree forest parameter do not change its contents). -/
def build_annoy_index (lib : ImagehashLib) (hash_db : List (String × StoredHashes)) :
    Except PyErr (List (List ℚ) × List String) :=
  buildLoop lib ([], []) hash_db

/-- Squared Euclidean distance over paired coordinates.  Annoy's reported
euclidean distance is the square root of this; comparisons and zero-ness
coincide, so distances stay in `ℚ` as squares. -/
def sqDist (v w : List ℚ) : ℚ :=
  ((v.zip w).map (fun p => (p.1 - p.2) * (p.1 - p.2))).sum

/-- Ordering of candidate neighbors: by distance, ties by position. -/
def nnLe (a b : Nat × ℚ) : Prop := a.2 < b.2 ∨ (a.2 = b.2 ∧ a.1 ≤ b.1)

instance : DecidableRel nnLe := fun a b =>
  inferInstanceAs (Decidable (a.2 < b.2 ∨ (a.2 = b.2 ∧ a.1 ≤ b.1)))

instance : IsTotal (Nat × ℚ) nnLe := by
  constructor
  intro a b
  rcases lt_trichotomy a.2 b.2 with h | h | h
  · exact Or.inl (Or.inl h)
  · rcases Nat.le_total a.1 b.1 with h2 | h2
    · exact Or.inl (Or.inr ⟨h, h2⟩)
    · exact Or.inr (Or.inr ⟨h.symm, h2⟩)
  · exact Or.inr (Or.inl h)

instance : IsTrans (Nat × ℚ) nnLe := by
  constructor
  intro a b c hab hbc
  rcases hab with hab | ⟨hab, hab2⟩
  · rcases hbc with hbc | ⟨hbc, _⟩
    · exact Or.inl (hab.trans hbc)
    · exact Or.inl (hbc ▸ hab)
  · rcases hbc with hbc | ⟨hbc, hbc2⟩
    · exact Or.inl (hab ▸ hbc)
    · exact Or.inr ⟨hab.trans hbc, hab2.trans hbc2⟩

/-- `index.get_nns_by_vector(v, k, include_distances=True)`: the Annoy
index is an external collaborator; per the matcher's contract it returns
the `k` nearest stored vectors by euclidean distance, as a pair of the
position list and the distance list. -/
def get_nns_by_vector (index : List (List ℚ)) (v : List ℚ) (k : Nat) :
    List Nat × List ℚ :=
  let withD := (List.range index.length).map (fun i => (i, sqDist v (index.getD i [])))
  let sorted := List.insertionSort nnLe withD
  ((sorted.take k).map Prod.fst, (sorted.take k).map Prod.snd)

/-- `Image.fromarray(detected_image)` followed by `.convert('RGB')`: the
detected card is already an RGB array, so the palette-mode branch is
unreachable and the conversion is the identity on the pixel raster. -/
def pil_fromarray_rgb (im : Img) : Img := im

/-- The query embedding that `find_matching_card` concatenates from the
three hashes of the detected image (app.py lines 234-238). -/
def detected_embedding (lib : ImagehashLib) (im : Img) : List ℚ :=
  match compute_robust_hash lib (.img (pil_fromarray_rgb im)) with
  | .ok v => v.1 ++ v.2.1 ++ v.2.2
  | .error _ => []

/-- app.py `find_matching_card` (lines 220-256): hash the detected image,
query the 5 nearest neighbors, take the first position
(`nearest_neighbors[0][0]`; `IndexError` if the index is empty), and return
the card id at that position of the freshly loaded database
(`list(hash_db.keys())[best_match_index]`; `IndexError` if out of range).
Only the id is returned: the best distance `nearest_neighbors[1][0]` is
printed and discarded. -/
def find_matching_card (lib : ImagehashLib) (detected_image : Img)
    (index : List (List ℚ)) (hash_db : List (String × StoredHashes)) :
    Except PyErr String :=
  match compute_robust_hash lib (.img (pil_fromarray_rgb detected_image)) with
  | .error e => .error e
  | .ok v =>
    let detected_emb := v.1 ++ v.2.1 ++ v.2.2
    let nearest_neighbors := get_nns_by_vector index detected_emb 5
    match nearest_neighbors.1 with
    | [] => .error .indexError
    | best_match_index :: _ =>
      match hash_db.get? best_match_index with
      | none => .error .indexError
      | some entry => .ok entry.1

/-- The printed nearest distance `nearest_neighbors[1][0]` (as its square). -/
def nearest_distance (index : List (List ℚ)) (v : List ℚ) : ℚ :=
  (get_nns_by_vector index v 5).2.headD 0

/-- The position the matcher resolves, `nearest_neighbors[0][0]`. -/
def nearest_index (index : List (List ℚ)) (v : List ℚ) : Nat :=
  (get_nns_by_vector index v 5).1.headD 0

/-- One part of a multipart upload request. -/
structure UploadedFile where
  filename : String
  content : List Nat
  deriving DecidableEq

/-- `request.files`: the named file parts of the request. -/
structure UploadRequest where
  files : List (String × UploadedFile)

def lookupFile : List (String × UploadedFile) → String → Option UploadedFile
  | [], _ => none
  | (k, f) :: rest, key => if k = key then some f else lookupFile rest key

/-- Outcome of the `/upload` route: a 400 rejection, a crash of the handler
(Flask's 500 on an uncaught exception), or the JSON result list of
`(card_index, closest_match_id)` pairs. -/
inductive UploadResult where
  | badRequest (msg : String)
  | serverError (e : PyErr)
  | ok (cards : List (Nat × String))
  deriving DecidableEq

def exceptIsOk {ε α : Type} : Except ε α → Bool
  | .ok _ => true
  | .error _ => false

/-- The match loop of `upload_image` (app.py lines 276-279): one
`find_matching_card` call per detected card, an exception from any call
propagating out of the handler. -/
def matchLoop (lib : ImagehashLib) (index : List (List ℚ))
    (hash_db : List (String × StoredHashes)) : List Img → Except PyErr (List String)
  | [] => .ok []
  | c :: rest =>
    match find_matching_card lib c index hash_db with
    | .error e => .error e
    | .ok match_id =>
      match matchLoop lib index hash_db rest with
      | .error e => .error e
      | .ok ids => .ok (match_id :: ids)

/-- app.py `upload_image` (lines 264-282): reject requests without an
`image` part or with an empty filename; otherwise detect cards (a decode
failure returns `None`, which `enumerate` then trips over with a
`TypeError`), look up a match for every detected card, and answer with one
`(card_index, closest_match_id)` entry per rectified card. -/
def upload_image (cv : CV) (det : Detector) (lib : ImagehashLib)
    (index : List (List ℚ)) (hash_db : List (String × StoredHashes))
    (req : UploadRequest) : UploadResult :=
  match lookupFile req.files "image" with
  | none => .badRequest "No file part"
  | some file =>
    if file.filename = "" then .badRequest "No selected file"
    else
      match detect_edges_and_corners cv det file.content with
      | none => .serverError .typeError
      | some detected_cards =>
        match matchLoop lib index hash_db detected_cards with
        | .error e => .serverError e
        | .ok ids => .ok ids.enum

/-- Whether the route answered 200 with a card list. -/
def UploadResult.isOkResult : UploadResult → Bool
  | .ok _ => true
  | _ => false

/-- The returned card list (empty for non-200 outcomes). -/
def UploadResult.cardsD : UploadResult → List (Nat × String)
  | .ok cs => cs
  | _ => []

/-! Concrete sample inputs used to evaluate the embedded code. -/

/-- A 1×1 black source image. -/
def img0 : Img := ⟨[[(0, 0, 0)]]⟩

/-- A tiny mask; the concrete `CV` instantiations below fix what the
contour machinery reports for it. -/
def mask0 : Mask := [[true]]

/-- Four collinear corner points, the degenerate-quadrilateral probe. -/
def degenContour : Contour := [(0, 0), (1, 1), (2, 2), (3, 3)]

/-- An ordinary convex 4-point contour. -/
def quadContour : Contour := [(0, 0), (4, 0), (4, 4), (0, 4)]

/-- A `CV` instantiation on which the mask yields one contour whose polygon
approximation is the collinear quadrilateral. -/
def cvDegen : CV where
  morphologyEx := id
  findContours := fun _ => [degenContour]
  contourArea := fun _ => 1
  convexHull := id
  arcLength := fun _ _ => 1
  approxPolyDP := fun c _ _ => c
  imdecode := fun _ => some img0

/-- A `CV` instantiation on which the mask yields one contour whose polygon
approximation is an ordinary quadrilateral. -/
def cvQuad : CV where
  morphologyEx := id
  findContours := fun _ => [quadContour]
  contourArea := fun _ => 1
  convexHull := id
  arcLength := fun _ _ => 16
  approxPolyDP := fun c _ _ => c
  imdecode := fun _ => some img0

/-- A concrete imagehash instantiation (every hash all-zero bits), used to
evaluate the pipeline on sample inputs. -/
def constLib : ImagehashLib where
  phashBits := fun _ => ⟨List.replicate 1024 false, List.length_replicate 1024 false⟩
  ahashBits := fun _ => ⟨List.replicate 1024 false, List.length_replicate 1024 false⟩
  dhashBits := fun _ => ⟨List.replicate 1024 false, List.length_replicate 1024 false⟩

/-- A detector reporting a single instance mask. -/
def detOne : Detector := ⟨fun _ => [mask0]⟩

/-- A well-formed upload request carrying one image file. -/
def req0 : UploadRequest := ⟨[("image", ⟨"card.jpg", [0]⟩)]⟩

def storedHashes0 : StoredHashes := ⟨"ab", "cd", "ef"⟩

/-- A single-entry reference database with valid hex hashes. -/
def dbC1 : List (String × StoredHashes) := [("base1-4", storedHashes0)]

/-- Another nonempty reference database. -/
def dbC6 : List (String × StoredHashes) := [("xy7-54", ⟨"00", "11", "22"⟩), ("xy7-55", ⟨"33", "44", "55"⟩)]

/-- A two-entry database for the matcher samples. -/
def dbAB : List (String × StoredHashes) := [("A", storedHashes0), ("B", storedHashes0)]

/-- An index whose single stored vector coincides with the all-zero query
embedding of `constLib` (nearest distance 0). -/
def idxZero : List (List ℚ) := [List.replicate 3072 0]

/-- An index whose single stored vector sits at squared distance 3072 from
the all-zero query embedding of `constLib`. -/
def idxOne : List (List ℚ) := [List.replicate 3072 1]

/-- A two-vector index for the matcher samples. -/
def idxTwo : List (List ℚ) := [List.replicate 3072 0, List.replicate 3072 1]

/-! Helper lemmas. -/

theorem warp_height (src : Img) (M : Mat3) (w h : Nat) :
    (warpPerspective src M w h).height = h := by
  simp [warpPerspective, Img.height]

theorem warp_width (src : Img) (M : Mat3) (w h : Nat) (hh : h ≠ 0) :
    (warpPerspective src M w h).width = w := by
  obtain ⟨n, rfl⟩ := Nat.exists_eq_succ_of_ne_zero hh
  simp [warpPerspective, Img.width, List.range_succ_eq_map]

theorem rectifyStep_height (img : Img) (sx sy : ℚ) (pts : List (ℚ × ℚ)) :
    (rectifyStep img sx sy pts).height = 700 := by
  simp [rectifyStep, warp_height]

theorem rectifyStep_width (img : Img) (sx sy : ℚ) (pts : List (ℚ × ℚ)) :
    (rectifyStep img sx sy pts).width = 500 := by
  simp [rectifyStep, warp_width]

theorem process_full_mask_length {cv : CV} {m : Mask} {q : List (ℚ × ℚ)}
    (h : process_full_mask cv m = some q) : q.length = 4 := by
  dsimp only [process_full_mask] at h
  split at h
  · cases h
  · split at h
    · split at h
      · cases h
      · cases h
        simp_all
    · cases h
      simp_all

/-- C1: the claim states that for every reference-database entry the vector
inserted at the entry's sequential position is the concatenation of the
three decoded 1024-bit hash vectors in phash/ahash/dhash order.  The code
cannot do this: line 204 passes the decoded phash `ImageHash` object itself
to `compute_robust_hash` (and never uses the decoded ahash/dhash again), so
`imagehash.phash` raises `AttributeError` on the very first entry and no
vector is ever inserted.  This theorem evaluates the build on a one-entry
database with valid hex hashes: it raises instead of inserting. -/
theorem C1_insertion_crashes (lib : ImagehashLib) :
    build_annoy_index lib dbC1 = .error .attributeError := rfl

/-- C2: the claim states that a (nearly) collinear source quadrilateral
makes the rectification fail with an explicit DegenerateQuadrilateral
condition.  On a mask whose polygon approximation is the collinear
quadrilateral (0,0),(1,1),(2,2),(3,3), the perspective system is singular
(`solveHomography` = none), yet the mask loop raises nothing and emits a
full-size 500×700 output image for that mask: degeneracy is silently passed
through, because `cv2.getPerspectiveTransform` never reports the singular
solve. -/
theorem C2_degeneracy_not_detected :
    solveHomography
        (sort_rectangle_points (degenContour.map (fun p => (p.1 * 1, p.2 * 1))))
        dst_points = none ∧
      processMasksGo cvDegen img0 1 1 [mask0] = [rectifyStep img0 1 1 degenContour] ∧
      (rectifyStep img0 1 1 degenContour).height = 700 ∧
      (rectifyStep img0 1 1 degenContour).width = 500 := by
  refine ⟨?_, ?_, rectifyStep_height _ _ _ _, rectifyStep_width _ _ _ _⟩
  · norm_num [solveHomography, gaussSolve, gaussForward, findPivot, elimRow, perspectiveRows,
      dst_points, degenContour, sort_rectangle_points, sortSplit, List.insertionSort,
      List.orderedInsert, yle, xle]
  · simp [processMasksGo, process_full_mask, cvDegen, degenContour, maxByArea]

/-- C8: for every input quadrilateral whose perspective system is solvable
(the claim's non-degeneracy assumption), the rectified output of the
transform step is exactly 500 wide by 700 high, independent of the input
points, scale factors and source image. -/
theorem C8_output_500x700 (img : Img) (sx sy : ℚ) (pts : List (ℚ × ℚ))
    (hnd : (solveHomography
        (sort_rectangle_points (pts.map (fun p => (p.1 * sx, p.2 * sy))))
        dst_points).isSome = true) :
    (rectifyStep img sx sy pts).height = 700 ∧ (rectifyStep img sx sy pts).width = 500 :=
  ⟨rectifyStep_height _ _ _ _, rectifyStep_width _ _ _ _⟩

/-- Witness for C8 at a concrete non-degenerate quadrilateral. -/
theorem C8_output_500x700_witness :
    (solveHomography
        (sort_rectangle_points (quadContour.map (fun p => (p.1 * 1, p.2 * 1))))
        dst_points).isSome = true ∧
      (rectifyStep img0 1 1 quadContour).height = 700 ∧
      (rectifyStep img0 1 1 quadContour).width = 500 := by
  have hnd : (solveHomography
      (sort_rectangle_points (quadContour.map (fun p => (p.1 * 1, p.2 * 1))))
      dst_points).isSome = true := by
    norm_num [solveHomography, gaussSolve, gaussForward, findPivot, elimRow, perspectiveRows,
      dst_points, quadContour, sort_rectangle_points, sortSplit, List.insertionSort,
      List.orderedInsert, yle, xle]
  exact ⟨hnd, C8_output_500x700 img0 1 1 quadContour hnd⟩

/-- C10: the mask stage of the pipeline only ever looks at the first 10
masks: it computes the same result as on the 10-truncated list, and
appending further masks (even ones that would rectify) changes nothing. -/
theorem C10_first_ten_masks (cv : CV) (img : Img) (sx sy : ℚ)
    (masks extra : List Mask) (hlen : 10 ≤ masks.length) :
    maskPipeline cv img sx sy masks = maskPipeline cv img sx sy (masks.take 10) ∧
      maskPipeline cv img sx sy (masks ++ extra) = maskPipeline cv img sx sy masks := by
  constructor
  · simp [maskPipeline, List.take_take]
  · simp [maskPipeline, List.take_append_of_le_length hlen]

/-- Witness for C10: eleven masks that all rectify; the eleventh never
contributes. -/
theorem C10_first_ten_masks_witness :
    10 ≤ (List.replicate 10 mask0).length ∧
      (maskPipeline cvQuad img0 1 1 (List.replicate 10 mask0) =
          maskPipeline cvQuad img0 1 1 ((List.replicate 10 mask0).take 10) ∧
        maskPipeline cvQuad img0 1 1 (List.replicate 10 mask0 ++ [mask0]) =
          maskPipeline cvQuad img0 1 1 (List.replicate 10 mask0)) :=
  ⟨by simp, C10_first_ten_masks cvQuad img0 1 1 (List.replicate 10 mask0) [mask0] (by simp)⟩

theorem toFloatVec_all01 (l : List Bool) :
    (toFloatVec l).all (fun x => decide (x = 0 ∨ x = 1)) = true := by
  induction l with
  | nil => rfl
  | cons b rest ih =>
    cases b <;> simpa [toFloatVec] using ih

/-- C9: the fingerprint of a detected image is deterministic (byte-identical
inputs give identical vectors), has exactly 3072 = 3 × 1024 entries, each
entry is 0 or 1, and it is the concatenation of the phash, ahash and dhash
bit vectors in that order. -/
theorem C9_fingerprint_deterministic (lib : ImagehashLib) (im1 im2 : Img)
    (h : im1 = im2) :
    detected_embedding lib im1 = detected_embedding lib im2 ∧
      (detected_embedding lib im1).length = 3072 ∧
      (detected_embedding lib im1).all (fun x => decide (x = 0 ∨ x = 1)) = true ∧
      detected_embedding lib im1 =
        toFloatVec (lib.phashBits (pil_fromarray_rgb im1)).1 ++
          toFloatVec (lib.ahashBits (pil_fromarray_rgb im1)).1 ++
          toFloatVec (lib.dhashBits (pil_fromarray_rgb im1)).1 := by
  subst h
  refine ⟨rfl, ?_, ?_, rfl⟩
  · simp [detected_embedding, compute_robust_hash, imagehash_phash,
      imagehash_average_hash, imagehash_dhash, toFloatVec,
      (lib.phashBits (pil_fromarray_rgb im1)).2, (lib.ahashBits (pil_fromarray_rgb im1)).2,
      (lib.dhashBits (pil_fromarray_rgb im1)).2]
  · simp only [detected_embedding, compute_robust_hash, imagehash_phash,
      imagehash_average_hash, imagehash_dhash, List.all_append, Bool.and_eq_true]
    exact ⟨⟨toFloatVec_all01 _, toFloatVec_all01 _⟩, toFloatVec_all01 _⟩

/-- Witness for C9 at the sample library and image. -/
theorem C9_fingerprint_deterministic_witness :
    img0 = img0 ∧
      (detected_embedding constLib img0 = detected_embedding constLib img0 ∧
        (detected_embedding constLib img0).length = 3072 ∧
        (detected_embedding constLib img0).all (fun x => decide (x = 0 ∨ x = 1)) = true ∧
        detected_embedding constLib img0 =
          toFloatVec (constLib.phashBits (pil_fromarray_rgb img0)).1 ++
            toFloatVec (constLib.ahashBits (pil_fromarray_rgb img0)).1 ++
            toFloatVec (constLib.dhashBits (pil_fromarray_rgb img0)).1) :=
  ⟨rfl, C9_fingerprint_deterministic constLib img0 img0 rfl⟩

theorem hex_to_hash_ok {s : String} {v : PILValue} (h : hex_to_hash s = .ok v) :
    v = .hashObj (hexBits s) := by
  unfold hex_to_hash at h
  split at h
  · cases h
    rfl
  · cases h

theorem build_entry_never_ok (lib : ImagehashLib) (acc : List (List ℚ) × List String)
    (e : String × StoredHashes) : exceptIsOk (build_entry lib acc e) = false := by
  unfold build_entry
  split
  · rfl
  · rename_i v1 h1
    rw [hex_to_hash_ok h1]
    split
    · rfl
    · split
      · rfl
      · rfl

/-- C6: the claim states that after building from N entries the id mapping
has N entries and a self-query of entry k returns its id at distance 0.
The builder never gets that far: on every nonempty reference database the
first entry already raises (through `compute_robust_hash` applied to the
decoded phash object), so no index/id-mapping pair is ever produced. -/
theorem C6_build_never_completes (lib : ImagehashLib)
    (db : List (String × StoredHashes)) (h : db ≠ []) :
    exceptIsOk (build_annoy_index lib db) = false := by
  match db, h with
  | e :: rest, _ =>
    show exceptIsOk (buildLoop lib ([], []) (e :: rest)) = false
    unfold buildLoop
    have hb := build_entry_never_ok lib ([], []) e
    split
    · rfl
    · rename_i acc2 hacc
      rw [hacc] at hb
      cases hb

/-- Witness for C6 at a concrete two-entry database. -/
theorem C6_build_never_completes_witness :
    dbC6 ≠ [] ∧ exceptIsOk (build_annoy_index constLib dbC6) = false :=
  ⟨by simp [dbC6], C6_build_never_completes constLib dbC6 (by simp [dbC6])⟩

/-- C3: whatever the contour machinery reports, for any mask with at least
one contour the quadrilateral extraction yields either exactly 4 vertices
or the explicit failure `none`, and the mask loop's treatment of the mask
decomposes so that a failing mask is simply skipped while the remaining
masks are still processed. -/
theorem C3_four_vertices_or_fail (cv : CV) (m : Mask) (img : Img) (sx sy : ℚ)
    (rest : List Mask)
    (hc : 1 ≤ (cv.findContours (cv.morphologyEx m)).length) :
    (process_full_mask cv m).elim True (fun q => q.length = 4) ∧
      processMasksGo cv img sx sy (m :: rest) =
        (process_full_mask cv m).elim (processMasksGo cv img sx sy rest)
          (fun rect => rectifyStep img sx sy rect :: processMasksGo cv img sx sy rest) := by
  constructor
  · cases h : process_full_mask cv m with
    | none => trivial
    | some q => exact process_full_mask_length h
  · cases h : process_full_mask cv m with
    | none => simp [processMasksGo, h]
    | some q => simp [processMasksGo, h]

/-- Witness for C3 on a concrete mask with one contour. -/
theorem C3_four_vertices_or_fail_witness :
    1 ≤ (cvQuad.findContours (cvQuad.morphologyEx mask0)).length ∧
      ((process_full_mask cvQuad mask0).elim True (fun q => q.length = 4) ∧
        processMasksGo cvQuad img0 1 1 (mask0 :: []) =
          (process_full_mask cvQuad mask0).elim (processMasksGo cvQuad img0 1 1 [])
            (fun rect => rectifyStep img0 1 1 rect :: processMasksGo cvQuad img0 1 1 [])) :=
  ⟨by simp [cvQuad], C3_four_vertices_or_fail cvQuad mask0 img0 1 1 [] (by simp [cvQuad])⟩

theorem sorted_eq_of_perm_of_nodup_y :
    ∀ l1 l2 : List (ℚ × ℚ), l1.Perm l2 → l1.Sorted yle → l2.Sorted yle →
      (l1.map Prod.snd).Nodup → l1 = l2 := by
  intro l1
  induction l1 with
  | nil =>
    intro l2 hp _ _ _
    exact (hp.symm.eq_nil).symm
  | cons a t1 ih =>
    intro l2 hp hs1 hs2 hnd
    cases l2 with
    | nil => cases hp.eq_nil
    | cons b t2 =>
      by_cases hab : a = b
      · subst hab
        have ht : t1 = t2 :=
          ih t2 hp.cons_inv hs1.of_cons hs2.of_cons (by simpa using hnd.of_cons)
        rw [ht]
      · exfalso
        have ha2 : a ∈ t2 := by
          rcases List.mem_cons.mp (hp.subset (List.mem_cons_self a t1)) with h | h
          · exact absurd h hab
          · exact h
        have hb1 : b ∈ t1 := by
          rcases List.mem_cons.mp (hp.symm.subset (List.mem_cons_self b t2)) with h | h
          · exact absurd h.symm hab
          · exact h
        have hya : a.2 ≤ b.2 := List.rel_of_sorted_cons hs1 b hb1
        have hyb : b.2 ≤ a.2 := List.rel_of_sorted_cons hs2 a ha2
        have hy : a.2 = b.2 := le_antisymm hya hyb
        rw [List.map_cons] at hnd
        have hnm : a.2 ∉ t1.map Prod.snd := (List.nodup_cons.mp hnd).1
        exact hnm (hy ▸ List.mem_map_of_mem Prod.snd hb1)

theorem insertionSortY_perm_eq {l1 l2 : List (ℚ × ℚ)} (hp : l1.Perm l2)
    (hnd : (l2.map Prod.snd).Nodup) :
    List.insertionSort yle l1 = List.insertionSort yle l2 := by
  have hps : (List.insertionSort yle l1).Perm l2 := (List.perm_insertionSort yle l1).trans hp
  apply sorted_eq_of_perm_of_nodup_y
  · exact hps.trans (List.perm_insertionSort yle l2).symm
  · exact List.sorted_insertionSort yle l1
  · exact List.sorted_insertionSort yle l2
  · exact ((hps.map Prod.snd).nodup_iff).mpr hnd

/-- C4: the claim of full permutation invariance fails (see the
counterexample: a y-tie that straddles the top/bottom split makes the
output depend on the input order), but it holds as soon as no two of the
four points share a y coordinate: then every ordering of the same four
points produces the identical TL, TR, BR, BL output of the
sort-by-y-then-split-and-sort-by-x algorithm. -/
theorem C4_perm_invariant_distinct_y (p1 p2 p3 p4 : ℚ × ℚ) (l : List (ℚ × ℚ))
    (hnd : ([p1, p2, p3, p4].map Prod.snd).Nodup)
    (hp : l.Perm [p1, p2, p3, p4]) :
    sort_rectangle_points l = sort_rectangle_points [p1, p2, p3, p4] := by
  unfold sort_rectangle_points
  rw [insertionSortY_perm_eq hp hnd]

/-- Counterexample to C4 as stated: the four distinct points (0,0), (10,5),
(0,5), (10,10) — two of which share y = 5 across the top/bottom split —
give different outputs under two of their orderings. -/
theorem C4_not_perm_invariant_cex :
    List.Perm [((0:ℚ), (0:ℚ)), (10, 5), (0, 5), (10, 10)]
        [((0:ℚ), (0:ℚ)), (0, 5), (10, 5), (10, 10)] ∧
      sort_rectangle_points [((0:ℚ), (0:ℚ)), (10, 5), (0, 5), (10, 10)] ≠
        sort_rectangle_points [((0:ℚ), (0:ℚ)), (0, 5), (10, 5), (10, 10)] := by
  constructor
  · decide
  · decide

/-- Witness for C4 on four points with pairwise distinct y coordinates. -/
theorem C4_perm_invariant_distinct_y_witness :
    ([((0:ℚ), (0:ℚ)), (10, 1), (0, 2), (10, 3)].map Prod.snd).Nodup ∧
      List.Perm [((10:ℚ), (1:ℚ)), (0, 0), (10, 3), (0, 2)]
        [((0:ℚ), (0:ℚ)), (10, 1), (0, 2), (10, 3)] ∧
      sort_rectangle_points [((10:ℚ), (1:ℚ)), (0, 0), (10, 3), (0, 2)] =
        sort_rectangle_points [((0:ℚ), (0:ℚ)), (10, 1), (0, 2), (10, 3)] :=
  ⟨by decide, by decide,
    C4_perm_invariant_distinct_y (0, 0) (10, 1) (0, 2) (10, 3)
      [(10, 1), (0, 0), (10, 3), (0, 2)] (by decide) (by decide)⟩

theorem sqDist_replicate (n : Nat) (a b : ℚ) :
    sqDist (List.replicate n a) (List.replicate n b) = (n : ℚ) * ((a - b) * (a - b)) := by
  induction n with
  | zero => simp [sqDist]
  | succ k ih =>
    simp only [List.replicate_succ, sqDist, List.zip_cons_cons, List.map_cons, List.sum_cons] at ih ⊢
    rw [ih]
    push_cast
    ring

theorem detected_embedding_constLib (im : Img) :
    detected_embedding constLib im = List.replicate 3072 0 := by
  simp only [detected_embedding, compute_robust_hash, imagehash_phash, imagehash_average_hash,
    imagehash_dhash, constLib, toFloatVec, List.map_replicate, pil_fromarray_rgb]
  norm_num [← List.replicate_add]

theorem get_nns_spec (index : List (List ℚ)) (v : List ℚ) (hne : index ≠ []) :
    ∃ hd tl,
      List.insertionSort nnLe ((List.range index.length).map
          (fun i => (i, sqDist v (index.getD i [])))) = hd :: tl ∧
        (get_nns_by_vector index v 5).1 = hd.1 :: (tl.take 4).map Prod.fst ∧
        (get_nns_by_vector index v 5).2 = hd.2 :: (tl.take 4).map Prod.snd ∧
        hd.1 < index.length ∧
        hd.2 = sqDist v (index.getD hd.1 []) ∧
        ∀ j, j < index.length → hd.2 ≤ sqDist v (index.getD j []) := by
  cases hs : List.insertionSort nnLe ((List.range index.length).map
      (fun i => (i, sqDist v (index.getD i [])))) with
  | nil =>
    exfalso
    have hlen := congrArg List.length hs
    rw [(List.perm_insertionSort nnLe _).length_eq] at hlen
    simp only [List.length_map, List.length_range, List.length_nil] at hlen
    exact hne (List.length_eq_zero.mp hlen)
  | cons hd tl =>
    have hsorted : List.Sorted nnLe (hd :: tl) := hs ▸ List.sorted_insertionSort nnLe _
    have hperm : (hd :: tl).Perm ((List.range index.length).map
        (fun i => (i, sqDist v (index.getD i [])))) := hs ▸ List.perm_insertionSort nnLe _
    have hhd : hd ∈ (List.range index.length).map
        (fun i => (i, sqDist v (index.getD i []))) := hperm.subset (List.mem_cons_self hd tl)
    obtain ⟨i, hi, hieq⟩ := List.mem_map.mp hhd
    have hilt : i < index.length := List.mem_range.mp hi
    refine ⟨hd, tl, rfl, ?_, ?_, ?_, ?_, ?_⟩
    · dsimp only [get_nns_by_vector]
      rw [hs]
      rfl
    · dsimp only [get_nns_by_vector]
      rw [hs]
      rfl
    · rw [← hieq]
      exact hilt
    · rw [← hieq]
    · intro j hj
      have hjm : (j, sqDist v (index.getD j [])) ∈ (List.range index.length).map
          (fun i => (i, sqDist v (index.getD i []))) :=
        List.mem_map_of_mem _ (List.mem_range.mpr hj)
      rcases List.mem_cons.mp (hperm.mem_iff.mpr hjm) with h | h
      · rw [← h]
      · rcases List.rel_of_sorted_cons hsorted _ h with hlt | ⟨heq, _⟩
        · exact le_of_lt hlt
        · exact le_of_eq heq

theorem nearest_index_lt (index : List (List ℚ)) (v : List ℚ) (hne : index ≠ []) :
    nearest_index index v < index.length := by
  obtain ⟨hd, tl, _, h1, _, hlt, _, _⟩ := get_nns_spec index v hne
  simp [nearest_index, h1]
  exact hlt

theorem find_matching_card_eq (lib : ImagehashLib) (im : Img) (index : List (List ℚ))
    (db : List (String × StoredHashes)) (hne : index ≠ []) (hlen : index.length ≤ db.length) :
    find_matching_card lib im index db =
      .ok ((db.getD (nearest_index index (detected_embedding lib im)) ("", storedHashes0)).1) := by
  obtain ⟨hd, tl, _, h1, _, hlt, _, _⟩ := get_nns_spec index (detected_embedding lib im) hne
  have hni : nearest_index index (detected_embedding lib im) = hd.1 := by
    simp [nearest_index, h1]
  have hred : find_matching_card lib im index db =
      (match (get_nns_by_vector index (detected_embedding lib im) 5).1 with
       | [] => Except.error PyErr.indexError
       | best :: _ =>
         match db.get? best with
         | none => Except.error PyErr.indexError
         | some entry => Except.ok entry.1) := rfl
  have hget : db.get? hd.1 = some (db.get ⟨hd.1, lt_of_lt_of_le hlt hlen⟩) :=
    List.get?_eq_get (lt_of_lt_of_le hlt hlen)
  rw [hred, h1]
  simp only [hget]
  rw [hni, List.getD_eq_get?, hget]
  rfl


theorem idxZero_ne_nil : idxZero ≠ [] := List.cons_ne_nil _ _

theorem idxOne_ne_nil : idxOne ≠ [] := List.cons_ne_nil _ _

theorem idxTwo_ne_nil : idxTwo ≠ [] := List.cons_ne_nil _ _

theorem idxZero_len_le : idxZero.length ≤ dbAB.length := by
  simp only [idxZero, dbAB, List.length_cons, List.length_nil]
  omega

theorem idxOne_len_le : idxOne.length ≤ dbAB.length := by
  simp only [idxOne, dbAB, List.length_cons, List.length_nil]
  omega

theorem idxTwo_len_le : idxTwo.length ≤ dbAB.length := by
  simp only [idxTwo, dbAB, List.length_cons, List.length_nil]
  omega

/-- C5: the claim states the match result is the nearest id *together with
its distance*.  The returned result is the id alone (the distance is only
printed), as the counterexample shows; what does hold is: the matcher asks
for the k=5 nearest neighbors, and the returned match result is exactly
the mapped card identifier of the single nearest neighbor (the position
minimizing the euclidean distance to the query embedding), the other four
candidates being discarded. -/
theorem C5_result_is_nearest_id (lib : ImagehashLib) (im : Img)
    (index : List (List ℚ)) (db : List (String × StoredHashes))
    (hne : index ≠ []) (hlen : index.length ≤ db.length) :
    nearest_index index (detected_embedding lib im) < index.length ∧
      ((List.range index.length).all (fun j =>
        decide (sqDist (detected_embedding lib im)
            (index.getD (nearest_index index (detected_embedding lib im)) []) ≤
          sqDist (detected_embedding lib im) (index.getD j []))) = true) ∧
      find_matching_card lib im index db =
        .ok ((db.getD (nearest_index index (detected_embedding lib im))
          ("", storedHashes0)).1) := by
  obtain ⟨hd, tl, _, h1, _, hlt, hd2, hmin⟩ :=
    get_nns_spec index (detected_embedding lib im) hne
  have hni : nearest_index index (detected_embedding lib im) = hd.1 := by
    simp [nearest_index, h1]
  refine ⟨hni ▸ hlt, ?_, find_matching_card_eq lib im index db hne hlen⟩
  rw [List.all_eq_true]
  intro j hj
  rw [List.mem_range] at hj
  simp only [decide_eq_true_eq]
  rw [hni, ← hd2]
  exact hmin j hj

/-- Witness for C5 on a two-vector index and two-entry database. -/
theorem C5_result_is_nearest_id_witness :
    idxTwo ≠ [] ∧ idxTwo.length ≤ dbAB.length ∧
      (nearest_index idxTwo (detected_embedding constLib img0) < idxTwo.length ∧
        ((List.range idxTwo.length).all (fun j =>
          decide (sqDist (detected_embedding constLib img0)
              (idxTwo.getD (nearest_index idxTwo (detected_embedding constLib img0)) []) ≤
            sqDist (detected_embedding constLib img0) (idxTwo.getD j []))) = true) ∧
        find_matching_card constLib img0 idxTwo dbAB =
          .ok ((dbAB.getD (nearest_index idxTwo (detected_embedding constLib img0))
            ("", storedHashes0)).1)) :=
  ⟨idxTwo_ne_nil, idxTwo_len_le,
    C5_result_is_nearest_id constLib img0 idxTwo dbAB idxTwo_ne_nil idxTwo_len_le⟩

/-- Counterexample to C5 as stated: two indexes whose nearest distances to
the same query differ (squared distance 0 versus 3072), yet the match
results are identical — so the result cannot contain the neighbor's
distance; it consists of the card identifier alone. -/
theorem C5_distance_not_in_result_cex :
    nearest_distance idxZero (detected_embedding constLib img0) ≠
        nearest_distance idxOne (detected_embedding constLib img0) ∧
      find_matching_card constLib img0 idxZero dbAB =
        find_matching_card constLib img0 idxOne dbAB := by
  constructor
  · obtain ⟨hd0, tl0, _, _, h20, hlt0, hd20, _⟩ :=
      get_nns_spec idxZero (detected_embedding constLib img0) idxZero_ne_nil
    obtain ⟨hd1, tl1, _, _, h21, hlt1, hd21, _⟩ :=
      get_nns_spec idxOne (detected_embedding constLib img0) idxOne_ne_nil
    have hz0 : hd0.1 = 0 := by
      have hL : idxZero.length = 1 := rfl
      rw [hL] at hlt0
      omega
    have hz1 : hd1.1 = 0 := by
      have hL : idxOne.length = 1 := rfl
      rw [hL] at hlt1
      omega
    rw [hz0] at hd20
    rw [hz1] at hd21
    have hg0 : idxZero.getD 0 [] = List.replicate 3072 (0:ℚ) := rfl
    have hg1 : idxOne.getD 0 [] = List.replicate 3072 (1:ℚ) := rfl
    rw [hg0, detected_embedding_constLib, sqDist_replicate] at hd20
    rw [hg1, detected_embedding_constLib, sqDist_replicate] at hd21
    rw [nearest_distance, nearest_distance, h20, h21]
    simp only [List.headD_cons]
    rw [hd20, hd21]
    norm_num
  · rw [find_matching_card_eq constLib img0 idxZero dbAB idxZero_ne_nil idxZero_len_le,
      find_matching_card_eq constLib img0 idxOne dbAB idxOne_ne_nil idxOne_len_le]
    have h0 : nearest_index idxZero (detected_embedding constLib img0) = 0 := by
      have hlt := nearest_index_lt idxZero (detected_embedding constLib img0) idxZero_ne_nil
      have hL : idxZero.length = 1 := rfl
      rw [hL] at hlt
      omega
    have h1 : nearest_index idxOne (detected_embedding constLib img0) = 0 := by
      have hlt := nearest_index_lt idxOne (detected_embedding constLib img0) idxOne_ne_nil
      have hL : idxOne.length = 1 := rfl
      rw [hL] at hlt
      omega
    rw [h0, h1]

theorem matchLoop_ok (lib : ImagehashLib) (index : List (List ℚ))
    (db : List (String × StoredHashes)) (hne : index ≠ []) (hlen : index.length ≤ db.length)
    (l : List Img) :
    matchLoop lib index db l =
      .ok (l.map (fun c =>
        (db.getD (nearest_index index (detected_embedding lib c)) ("", storedHashes0)).1)) := by
  induction l with
  | nil => rfl
  | cons c rest ih =>
    unfold matchLoop
    rw [find_matching_card_eq lib c index db hne hlen, ih]
    rfl

/-- C7: the claim bundles the degenerate-transform case with the detection
failures; the counterexample shows a degenerate mask is NOT skipped.  What
does hold: whenever the request carries a decodable image and the index is
nonempty and covered by the database, masks whose contour/polygon
extraction fails are skipped while the rest continue, the request completes
with HTTP 200, and the response has exactly one entry per successfully
rectified mask with sequential card indexes 0, 1, … — failed masks are
silently omitted rather than reported. -/
theorem C7_failures_skipped_request_completes (cv : CV) (det : Detector)
    (lib : ImagehashLib) (index : List (List ℚ)) (db : List (String × StoredHashes))
    (req : UploadRequest) (file : UploadedFile) (img : Img)
    (hf : lookupFile req.files "image" = some file)
    (hn : file.filename ≠ "")
    (hdec : cv.imdecode file.content = some img)
    (hne : index ≠ []) (hlen : index.length ≤ db.length) :
    (upload_image cv det lib index db req).isOkResult = true ∧
      (upload_image cv det lib index db req).cardsD.length =
        ((detect_edges_and_corners cv det file.content).getD []).length ∧
      (upload_image cv det lib index db req).cardsD.map Prod.fst =
        List.range ((detect_edges_and_corners cv det file.content).getD []).length ∧
      (∀ m rest sx sy,
        process_full_mask cv m = none →
          processMasksGo cv img sx sy (m :: rest) = processMasksGo cv img sx sy rest) := by
  have hcards : detect_edges_and_corners cv det file.content =
      some (maskPipeline cv (cvtColorBGR2RGB img) ((img.width : ℚ) / 640)
        ((img.height : ℚ) / 640)
        (det.predict (resizeImg (cvtColorBGR2RGB img) 640 640))) := by
    unfold detect_edges_and_corners
    rw [hdec]
  have hupload : upload_image cv det lib index db req =
      .ok ((maskPipeline cv (cvtColorBGR2RGB img) ((img.width : ℚ) / 640)
          ((img.height : ℚ) / 640)
          (det.predict (resizeImg (cvtColorBGR2RGB img) 640 640))).map (fun c =>
        (db.getD (nearest_index index (detected_embedding lib c)) ("", storedHashes0)).1)).enum := by
    unfold upload_image
    rw [hf]
    simp only [hn, if_false, hcards, matchLoop_ok lib index db hne hlen]
  refine ⟨?_, ?_, ?_, ?_⟩
  · rw [hupload]
    rfl
  · rw [hupload, hcards]
    simp [UploadResult.cardsD]
  · rw [hupload, hcards]
    simp [UploadResult.cardsD, List.enum_map_fst]
  · intro m rest sx sy hm
    simp [processMasksGo, hm]

/-- Witness for C7 on a concrete request whose single mask succeeds. -/
theorem C7_failures_skipped_request_completes_witness :
    lookupFile req0.files "image" = some ⟨"card.jpg", [0]⟩ ∧
      (⟨"card.jpg", [0]⟩ : UploadedFile).filename ≠ "" ∧
      cvQuad.imdecode [0] = some img0 ∧
      idxZero ≠ [] ∧ idxZero.length ≤ dbAB.length ∧
      ((upload_image cvQuad detOne constLib idxZero dbAB req0).isOkResult = true ∧
        (upload_image cvQuad detOne constLib idxZero dbAB req0).cardsD.length =
          ((detect_edges_and_corners cvQuad detOne [0]).getD []).length ∧
        (upload_image cvQuad detOne constLib idxZero dbAB req0).cardsD.map Prod.fst =
          List.range ((detect_edges_and_corners cvQuad detOne [0]).getD []).length ∧
        (∀ m rest sx sy,
          process_full_mask cvQuad m = none →
            processMasksGo cvQuad img0 sx sy (m :: rest) =
              processMasksGo cvQuad img0 sx sy rest)) :=
  ⟨rfl, by decide, rfl, idxZero_ne_nil, idxZero_len_le,
    C7_failures_skipped_request_completes cvQuad detOne constLib idxZero dbAB req0
      ⟨"card.jpg", [0]⟩ img0 rfl (by decide) rfl idxZero_ne_nil idxZero_len_le⟩

/-- Counterexample to C7 as stated: a mask whose polygon approximation is
degenerate (four collinear corners, singular perspective system) is NOT
skipped — the request returns a result entry for it, because the
degenerate-transform condition is never detected.  Only the two detection
failures (no contours, no 4-vertex polygon) lead to skipping. -/
theorem C7_degenerate_mask_not_skipped_cex :
    solveHomography (sort_rectangle_points (degenContour.map
        (fun p => (p.1 * ((img0.width : ℚ) / 640), p.2 * ((img0.height : ℚ) / 640)))))
      dst_points = none ∧
      upload_image cvDegen detOne constLib idxZero dbAB req0 = .ok [(0, "A")] := by
  constructor
  · norm_num [solveHomography, gaussSolve, gaussForward, findPivot, elimRow, perspectiveRows,
      dst_points, degenContour, sort_rectangle_points, sortSplit, List.insertionSort,
      List.orderedInsert, yle, xle, Img.width, Img.height, img0]
  · rfl

/-- Witness for C1 at the sample library instantiation. -/
theorem C1_insertion_crashes_witness :
    build_annoy_index constLib dbC1 = .error .attributeError :=
  C1_insertion_crashes constLib
